import Mathlib

/-!
Verification model of the roller-coaster track store
(src/client/src/lib/stores/useRollerCoaster.tsx).

Coordinates are modelled over the real numbers; THREE.Vector3 becomes the
structure Vec3 below.  The module-level counter pointCounter that the store
uses to mint fresh point ids is made explicit as the counter field of Store.
Every store operation is a function Store -> Store.
-/

/-- A 3D vector, the model of THREE.Vector3. -/
structure Vec3 where
  x : ℝ
  y : ℝ
  z : ℝ

instance : Inhabited Vec3 := ⟨⟨0, 0, 0⟩⟩

/-- Componentwise subtraction, THREE.Vector3.sub. -/
def Vec3.sub (a b : Vec3) : Vec3 :=
  ⟨a.x - b.x, a.y - b.y, a.z - b.z⟩

/-- Euclidean length, THREE.Vector3.length: sqrt(x*x + y*y + z*z). -/
noncomputable def Vec3.len (v : Vec3) : ℝ :=
  Real.sqrt (v.x * v.x + v.y * v.y + v.z * v.z)

open Classical in
/-- THREE.Vector3.normalize: divideScalar(this.length() || 1), i.e. each
component is multiplied by 1/l where l is the length, or 1 if the length
is zero. -/
noncomputable def Vec3.normalize (v : Vec3) : Vec3 :=
  let l := if v.len = 0 then 1 else v.len
  ⟨v.x * (1 / l), v.y * (1 / l), v.z * (1 / l)⟩

/-- THREE.Vector3.crossVectors(a, b). -/
def Vec3.cross (a b : Vec3) : Vec3 :=
  ⟨a.y * b.z - a.z * b.y, a.z * b.x - a.x * b.z, a.x * b.y - a.y * b.x⟩

/-- CoasterMode = "build" | "ride" | "preview". -/
inductive CoasterMode where
  | build
  | ride
  | preview
deriving DecidableEq, Repr

/-- interface TrackPoint { id, position, tilt }. -/
structure TrackPoint where
  id : String
  position : Vec3
  tilt : ℝ

/-- Placeholder used for out-of-range list reads (never reached on the
index ranges the operations actually use). -/
def defaultPoint : TrackPoint := ⟨"", ⟨0, 0, 0⟩, 0⟩

instance : Inhabited TrackPoint := ⟨defaultPoint⟩

/-- The data fields of RollerCoasterState (the zustand store minus its
methods). -/
structure RollerCoasterState where
  mode : CoasterMode
  trackPoints : List TrackPoint
  selectedPointId : Option String
  rideProgress : ℝ
  isRiding : Bool
  rideSpeed : ℝ
  isDraggingPoint : Bool
  isAddingPoints : Bool
  isLooped : Bool
  hasChainLift : Bool
  showWoodSupports : Bool
  isNightMode : Bool
  cameraTarget : Option Vec3

/-- The store together with the module-level pointCounter. -/
structure Store where
  counter : ℕ
  state : RollerCoasterState

/-- The id string minted for the n-th increment of pointCounter:
`point-${n}`. -/
def mkId (n : ℕ) : String :=
  "point-" ++ toString n

/-- The initial state of the store (the object literal passed to create). -/
def initState : RollerCoasterState :=
  { mode := .build
    trackPoints := []
    selectedPointId := none
    rideProgress := 0
    isRiding := false
    rideSpeed := 1
    isDraggingPoint := false
    isAddingPoints := true
    isLooped := false
    hasChainLift := true
    showWoodSupports := false
    isNightMode := false
    cameraTarget := none }

/-- The store at application start: pointCounter = 0 and the initial state. -/
def initialStore : Store := ⟨0, initState⟩

/-- setMode. -/
def setMode (m : CoasterMode) (st : Store) : Store :=
  { st with state := { st.state with mode := m } }

/-- setCameraTarget. -/
def setCameraTarget (t : Option Vec3) (st : Store) : Store :=
  { st with state := { st.state with cameraTarget := t } }

/-- setIsDraggingPoint. -/
def setIsDraggingPoint (b : Bool) (st : Store) : Store :=
  { st with state := { st.state with isDraggingPoint := b } }

/-- setIsAddingPoints. -/
def setIsAddingPoints (b : Bool) (st : Store) : Store :=
  { st with state := { st.state with isAddingPoints := b } }

/-- setIsLooped. -/
def setIsLooped (b : Bool) (st : Store) : Store :=
  { st with state := { st.state with isLooped := b } }

/-- setHasChainLift. -/
def setHasChainLift (b : Bool) (st : Store) : Store :=
  { st with state := { st.state with hasChainLift := b } }

/-- setShowWoodSupports. -/
def setShowWoodSupports (b : Bool) (st : Store) : Store :=
  { st with state := { st.state with showWoodSupports := b } }

/-- setIsNightMode. -/
def setIsNightMode (b : Bool) (st : Store) : Store :=
  { st with state := { st.state with isNightMode := b } }

/-- addTrackPoint: mint `point-${++pointCounter}` and append a new point
with tilt 0 at the end of the sequence. -/
def addTrackPoint (pos : Vec3) (st : Store) : Store :=
  { counter := st.counter + 1
    state := { st.state with
      trackPoints := st.state.trackPoints ++ [⟨mkId (st.counter + 1), pos, 0⟩] } }

/-- updateTrackPoint: replace the position of the point matching the id. -/
def updateTrackPoint (id : String) (pos : Vec3) (st : Store) : Store :=
  { st with state := { st.state with
      trackPoints := st.state.trackPoints.map fun p =>
        if p.id == id then { p with position := pos } else p } }

/-- updateTrackPointTilt: replace the tilt of the point matching the id. -/
def updateTrackPointTilt (id : String) (tilt : ℝ) (st : Store) : Store :=
  { st with state := { st.state with
      trackPoints := st.state.trackPoints.map fun p =>
        if p.id == id then { p with tilt := tilt } else p } }

/-- removeTrackPoint: filter out points whose id matches; clear the
selection when it equals the removed id. -/
def removeTrackPoint (id : String) (st : Store) : Store :=
  { st with state := { st.state with
      trackPoints := st.state.trackPoints.filter fun p => !(p.id == id)
      selectedPointId :=
        if st.state.selectedPointId = some id then none
        else st.state.selectedPointId } }

/-- selectPoint. -/
def selectPoint (id : Option String) (st : Store) : Store :=
  { st with state := { st.state with selectedPointId := id } }

/-- clearTrack. -/
def clearTrack (st : Store) : Store :=
  { st with state := { st.state with
      trackPoints := []
      selectedPointId := none
      rideProgress := 0
      isRiding := false } }

/-- setRideProgress. -/
def setRideProgress (p : ℝ) (st : Store) : Store :=
  { st with state := { st.state with rideProgress := p } }

/-- setIsRiding. -/
def setIsRiding (b : Bool) (st : Store) : Store :=
  { st with state := { st.state with isRiding := b } }

/-- setRideSpeed. -/
def setRideSpeed (s : ℝ) (st : Store) : Store :=
  { st with state := { st.state with rideSpeed := s } }

/-- startRide: only when the track has at least 2 points, set mode to ride,
isRiding to true and rideProgress to 0. -/
def startRide (st : Store) : Store :=
  if 2 ≤ st.state.trackPoints.length then
    { st with state := { st.state with
        mode := .ride
        isRiding := true
        rideProgress := 0 } }
  else st

/-- stopRide. -/
def stopRide (st : Store) : Store :=
  { st with state := { st.state with
      mode := .build
      isRiding := false
      rideProgress := 0 } }

/-- loopRadius = 8. -/
def loopRadius : ℝ := 8

/-- lateralOffset = loopRadius + 2. -/
def lateralOffset : ℝ := loopRadius + 2

/-- numLoopPoints = 16 (declared by the code but never used). -/
def numLoopPoints : ℕ := 16

/-- arcPoints = 8. -/
def arcPoints : ℕ := 8

/-- The vector forward before normalization in createLoopAtPoint for a
target index i > 0: the difference basePoint.position - prevPoint.position
with its y component set to 0. -/
def horizDelta (tps : List TrackPoint) (i : ℕ) : Vec3 :=
  let f := Vec3.sub (tps.getD i defaultPoint).position
      (tps.getD (i - 1) defaultPoint).position
  ⟨f.x, 0, f.z⟩

open Classical in
/-- The forward direction computed by createLoopAtPoint: (1,0,0) when the
target is the first point; otherwise the horizontal difference to the
previous point, replaced by (1,0,0) when its length is below 0.1, then
normalized. -/
noncomputable def computeForward (tps : List TrackPoint) (i : ℕ) : Vec3 :=
  if 0 < i then
    let f := horizDelta tps i
    Vec3.normalize (if f.len < 0.1 then ⟨1, 0, 0⟩ else f)
  else ⟨1, 0, 0⟩

/-- up = (0, 1, 0). -/
def upVec : Vec3 := ⟨0, 1, 0⟩

/-- left = crossVectors(up, forward).normalize(). -/
noncomputable def computeLeft (tps : List TrackPoint) (i : ℕ) : Vec3 :=
  Vec3.normalize (Vec3.cross upVec (computeForward tps i))

/-- The incoming-section shift: position.x + left.x * lateralOffset,
y unchanged, position.z + left.z * lateralOffset. -/
noncomputable def shiftLeftPoint (left : Vec3) (p : TrackPoint) : TrackPoint :=
  { p with position :=
      ⟨p.position.x + left.x * lateralOffset,
       p.position.y,
       p.position.z + left.z * lateralOffset⟩ }

/-- The outgoing-section shift: position.x - left.x * lateralOffset,
y unchanged, position.z - left.z * lateralOffset. -/
noncomputable def shiftRightPoint (left : Vec3) (p : TrackPoint) : TrackPoint :=
  { p with position :=
      ⟨p.position.x - left.x * lateralOffset,
       p.position.y,
       p.position.z - left.z * lateralOffset⟩ }

/-- incomingPoints = trackPoints.slice(0, pointIndex + 1) shifted left. -/
noncomputable def incomingPoints (tps : List TrackPoint) (i : ℕ) (left : Vec3) :
    List TrackPoint :=
  (tps.take (i + 1)).map (shiftLeftPoint left)

/-- outgoingPoints = trackPoints.slice(pointIndex + 1) shifted right. -/
noncomputable def outgoingPoints (tps : List TrackPoint) (i : ℕ) (left : Vec3) :
    List TrackPoint :=
  (tps.drop (i + 1)).map (shiftRightPoint left)

/-- entryPos: the position of the last incoming point. -/
noncomputable def entryPos (tps : List TrackPoint) (i : ℕ) (left : Vec3) : Vec3 :=
  ((incomingPoints tps i left).getD ((incomingPoints tps i left).length - 1)
    defaultPoint).position

/-- exitPos: the position of the first outgoing point. -/
noncomputable def exitPos (tps : List TrackPoint) (i : ℕ) (left : Vec3) : Vec3 :=
  ((outgoingPoints tps i left).getD 0 defaultPoint).position

/-- The loop center: midway between entry and exit horizontally, at
entry height + loopRadius. -/
noncomputable def loopCenter (tps : List TrackPoint) (i : ℕ) (left : Vec3) : Vec3 :=
  ⟨((entryPos tps i left).x + (exitPos tps i left).x) / 2,
   (entryPos tps i left).y + loopRadius,
   ((entryPos tps i left).z + (exitPos tps i left).z) / 2⟩

/-- The arc-point position for a given angle: lateral offset
cos(angle) * loopRadius along left from the center, vertical offset
sin(angle) * loopRadius. -/
noncomputable def loopArcPos (center left : Vec3) (angle : ℝ) : Vec3 :=
  ⟨center.x + left.x * (Real.cos angle * loopRadius),
   center.y + Real.sin angle * loopRadius,
   center.z + left.z * (Real.cos angle * loopRadius)⟩

/-- The angle of the i-th arc point: t = i / arcPoints, angle = t * PI * 2. -/
noncomputable def loopAngle (i : ℕ) : ℝ :=
  ((i : ℝ) / (arcPoints : ℝ)) * Real.pi * 2

/-- The i-th generated loop point: fresh id `point-${counter + i}`,
position on the arc, tilt 0. -/
noncomputable def loopPoint (counter : ℕ) (center left : Vec3) (i : ℕ) :
    TrackPoint :=
  ⟨mkId (counter + i), loopArcPos center left (loopAngle i), 0⟩

/-- The generated loop points, for i = 1 .. arcPoints - 1. -/
noncomputable def loopPoints (counter : ℕ) (center left : Vec3) :
    List TrackPoint :=
  (List.range' 1 (arcPoints - 1)).map (loopPoint counter center left)

/-- createLoopAtPoint: find the target index; reject when the id is not
found or the target is the last point; otherwise splice
incoming ++ loop ++ outgoing, consuming arcPoints - 1 fresh ids. -/
noncomputable def createLoopAtPoint (id : String) (st : Store) : Store :=
  match st.state.trackPoints.findIdx? (fun p => p.id == id) with
  | none => st
  | some pointIndex =>
    if st.state.trackPoints.length - 1 ≤ pointIndex then st
    else
      let tps := st.state.trackPoints
      let left := computeLeft tps pointIndex
      let center := loopCenter tps pointIndex left
      { counter := st.counter + (arcPoints - 1)
        state := { st.state with
          trackPoints :=
            incomingPoints tps pointIndex left
              ++ loopPoints st.counter center left
              ++ outgoingPoints tps pointIndex left } }

/-- One constructor per mutation operation of the store. -/
inductive Op where
  | setMode (m : CoasterMode)
  | setCameraTarget (t : Option Vec3)
  | addTrackPoint (pos : Vec3)
  | updateTrackPoint (id : String) (pos : Vec3)
  | updateTrackPointTilt (id : String) (tilt : ℝ)
  | removeTrackPoint (id : String)
  | createLoopAtPoint (id : String)
  | selectPoint (id : Option String)
  | clearTrack
  | setRideProgress (p : ℝ)
  | setIsRiding (b : Bool)
  | setRideSpeed (s : ℝ)
  | setIsDraggingPoint (b : Bool)
  | setIsAddingPoints (b : Bool)
  | setIsLooped (b : Bool)
  | setHasChainLift (b : Bool)
  | setShowWoodSupports (b : Bool)
  | setIsNightMode (b : Bool)
  | startRide
  | stopRide

/-- Interpretation of one operation on the store. -/
noncomputable def runOp (op : Op) (st : Store) : Store :=
  match op with
  | .setMode m => setMode m st
  | .setCameraTarget t => setCameraTarget t st
  | .addTrackPoint pos => addTrackPoint pos st
  | .updateTrackPoint id pos => updateTrackPoint id pos st
  | .updateTrackPointTilt id tilt => updateTrackPointTilt id tilt st
  | .removeTrackPoint id => removeTrackPoint id st
  | .createLoopAtPoint id => createLoopAtPoint id st
  | .selectPoint id => selectPoint id st
  | .clearTrack => clearTrack st
  | .setRideProgress p => setRideProgress p st
  | .setIsRiding b => setIsRiding b st
  | .setRideSpeed s => setRideSpeed s st
  | .setIsDraggingPoint b => setIsDraggingPoint b st
  | .setIsAddingPoints b => setIsAddingPoints b st
  | .setIsLooped b => setIsLooped b st
  | .setHasChainLift b => setHasChainLift b st
  | .setShowWoodSupports b => setShowWoodSupports b st
  | .setIsNightMode b => setIsNightMode b st
  | .startRide => startRide st
  | .stopRide => stopRide st

/-- Run a whole sequence of operations from a given store. -/
noncomputable def runAll (ops : List Op) (st : Store) : Store :=
  ops.foldl (fun s op => runOp op s) st

/-- Well-formedness of the id supply: the ids in the track are pairwise
distinct and every id was minted from some counter value at most the
current one. -/
def IdsOk (st : Store) : Prop :=
  (st.state.trackPoints.map TrackPoint.id).Nodup ∧
    ∀ p ∈ st.state.trackPoints,
      ∃ k, 1 ≤ k ∧ k ≤ st.counter ∧ p.id = mkId k

/-- The translation used in the statement of the splice claim: move a point
d units along the horizontal components of a direction, height unchanged. -/
def translateH (d : ℝ) (dir : Vec3) (p : TrackPoint) : TrackPoint :=
  { p with position :=
      ⟨p.position.x + d * dir.x, p.position.y, p.position.z + d * dir.z⟩ }

/-- Concrete two-point straight track used as a witness input. -/
def pA : TrackPoint := ⟨"point-1", ⟨0, 0, 0⟩, 0⟩

/-- Second concrete point. -/
def pB : TrackPoint := ⟨"point-2", ⟨5, 0, 0⟩, 0⟩

/-- A store holding the two-point track, with counter 2. -/
def st2 : Store := ⟨2, { initState with trackPoints := [pA, pB] }⟩

/-- A store holding a single point, with counter 1. -/
def st1 : Store := ⟨1, { initState with trackPoints := [pA] }⟩

/-- A store with an empty track but a selection referencing an id that no
point carries. -/
def stSel : Store := ⟨0, { initState with selectedPointId := some "ghost" }⟩

/-- Shorthand for the track of st2. -/
def tps2 : List TrackPoint := st2.state.trackPoints

/-- The left vector computed for target index 0 on tps2. -/
noncomputable def left2 : Vec3 := computeLeft tps2 0

/-- The loop center computed for target index 0 on tps2. -/
noncomputable def center2 : Vec3 := loopCenter tps2 0 left2

/-- A wide two-point track for the forward-direction witness: second point
10 units along x. -/
def pC : TrackPoint := ⟨"point-3", ⟨10, 0, 0⟩, 0⟩

/-- Track for the forward-direction witness. -/
def tps5 : List TrackPoint := [pA, pC]

/-- A store holding one point whose id is also the current selection. -/
def stRem : Store :=
  ⟨1, { initState with trackPoints := [pA], selectedPointId := some "point-1" }⟩

/-! ### Injectivity of the minted ids -/

theorem digitChar_inj : ∀ a < 10, ∀ b < 10, Nat.digitChar a = Nat.digitChar b → a = b := by
  decide

theorem map_digitChar_inj :
    ∀ (l₁ l₂ : List ℕ), (∀ x ∈ l₁, x < 10) → (∀ x ∈ l₂, x < 10) →
      l₁.map Nat.digitChar = l₂.map Nat.digitChar → l₁ = l₂ := by
  intro l₁
  induction l₁ with
  | nil => intro l₂ _ _ h; cases l₂ <;> simp_all
  | cons a t ih =>
    intro l₂ h1 h2 h
    cases l₂ with
    | nil => simp_all
    | cons b t₂ =>
      simp only [List.map_cons, List.cons.injEq] at h
      have hab : a = b :=
        digitChar_inj a (h1 a (by simp)) b (h2 b (by simp)) h.1
      subst hab
      rw [ih t₂ (fun x hx => h1 x (by simp [hx])) (fun x hx => h2 x (by simp [hx])) h.2]

theorem toDigitsCore_eq_digits (f : ℕ) :
    ∀ (n : ℕ) (ds : List Char), 0 < n → n < f →
      Nat.toDigitsCore 10 f n ds
        = ((Nat.digits 10 n).map Nat.digitChar).reverse ++ ds := by
  induction f with
  | zero => intro n ds hn hf; omega
  | succ f ih =>
    intro n ds hn hf
    rw [Nat.toDigitsCore]
    by_cases h : n / 10 = 0
    · have hlt : n < 10 := by
        by_contra hc
        push_neg at hc
        have := Nat.div_pos hc (by norm_num : 0 < 10)
        omega
      rw [if_pos h, Nat.digits_def' (by norm_num : (1:ℕ) < 10) hn, h]
      simp [Nat.mod_eq_of_lt hlt]
    · rw [if_neg h]
      have hpos : 0 < n / 10 := Nat.pos_of_ne_zero h
      have hlt : n / 10 < f := by
        have := Nat.div_lt_self hn (by norm_num : 1 < 10)
        omega
      rw [ih (n / 10) _ hpos hlt, Nat.digits_def' (by norm_num : (1:ℕ) < 10) hn]
      simp

theorem toDigits_eq_digits (k : ℕ) (hk : 0 < k) :
    Nat.toDigits 10 k = ((Nat.digits 10 k).map Nat.digitChar).reverse := by
  rw [Nat.toDigits, toDigitsCore_eq_digits (k + 1) k [] hk (Nat.lt_succ_self k),
    List.append_nil]

theorem toDigits_ten_injective (m n : ℕ)
    (h : Nat.toDigits 10 m = Nat.toDigits 10 n) : m = n := by
  have hz : Nat.toDigits 10 0 = ['0'] := rfl
  have digitsLt : ∀ k : ℕ, ∀ x ∈ Nat.digits 10 k, x < 10 := fun k x hx =>
    Nat.digits_lt_base (by norm_num) hx
  have digitsEq : ∀ a b : ℕ, Nat.digits 10 a = Nat.digits 10 b → a = b := by
    intro a b hab
    have := congrArg (Nat.ofDigits 10) hab
    rwa [Nat.ofDigits_digits, Nat.ofDigits_digits] at this
  rcases Nat.eq_zero_or_pos m with hm | hm <;> rcases Nat.eq_zero_or_pos n with hn | hn
  · omega
  · exfalso
    subst hm
    rw [hz, toDigits_eq_digits n hn] at h
    have hmap : (Nat.digits 10 n).map Nat.digitChar = ['0'] := by
      have := congrArg List.reverse h
      simpa using this.symm
    have hdig : Nat.digits 10 n = [0] :=
      map_digitChar_inj _ [0] (digitsLt n) (by simp) (by simpa using hmap)
    have hn0 : n = 0 := by
      have h0 := congrArg (Nat.ofDigits 10) hdig
      rw [Nat.ofDigits_digits] at h0
      simpa [Nat.ofDigits] using h0
    omega
  · exfalso
    subst hn
    rw [hz, toDigits_eq_digits m hm] at h
    have hmap : (Nat.digits 10 m).map Nat.digitChar = ['0'] := by
      have := congrArg List.reverse h
      simpa using this
    have hdig : Nat.digits 10 m = [0] :=
      map_digitChar_inj _ [0] (digitsLt m) (by simp) (by simpa using hmap)
    have hm0 : m = 0 := by
      have h0 := congrArg (Nat.ofDigits 10) hdig
      rw [Nat.ofDigits_digits] at h0
      simpa [Nat.ofDigits] using h0
    omega
  · rw [toDigits_eq_digits m hm, toDigits_eq_digits n hn] at h
    exact digitsEq m n
      (map_digitChar_inj _ _ (digitsLt m) (digitsLt n) (List.reverse_inj.mp h))

theorem mkId_injective : Function.Injective mkId := by
  intro m n h
  have hd : ("point-".data ++ (Nat.repr m).data)
      = ("point-".data ++ (Nat.repr n).data) := by
    have := congrArg String.data h
    simpa [mkId, toString, String.append] using this
  have hrepr : Nat.repr m = Nat.repr n :=
    String.ext (List.append_cancel_left hd)
  have htd : Nat.toDigits 10 m = Nat.toDigits 10 n := by
    have := congrArg String.data hrepr
    simpa [Nat.repr, List.asString] using this
  exact toDigits_ten_injective m n htd

/-! ### Unfolding lemmas for createLoopAtPoint -/

theorem createLoopAtPoint_reject (id : String) (st : Store)
    (h : ∀ i, st.state.trackPoints.findIdx? (fun p => p.id == id) = some i →
      st.state.trackPoints.length - 1 ≤ i) :
    createLoopAtPoint id st = st := by
  unfold createLoopAtPoint
  cases hfind : st.state.trackPoints.findIdx? (fun p => p.id == id) with
  | none => rfl
  | some i =>
    dsimp only
    rw [if_pos (h i hfind)]

theorem createLoopAtPoint_success (id : String) (st : Store) (i : ℕ)
    (hfind : st.state.trackPoints.findIdx? (fun p => p.id == id) = some i)
    (hlt : i < st.state.trackPoints.length - 1) :
    createLoopAtPoint id st =
      { counter := st.counter + (arcPoints - 1)
        state := { st.state with
          trackPoints :=
            incomingPoints st.state.trackPoints i
                (computeLeft st.state.trackPoints i)
              ++ loopPoints st.counter
                (loopCenter st.state.trackPoints i
                  (computeLeft st.state.trackPoints i))
                (computeLeft st.state.trackPoints i)
              ++ outgoingPoints st.state.trackPoints i
                (computeLeft st.state.trackPoints i) } } := by
  unfold createLoopAtPoint
  rw [hfind]
  dsimp only
  rw [if_neg (by omega)]

/-! ### Claims C8, C10, C7, C2 -/

/-- C8: for every prior state, clearTrack yields trackPoints = [],
selectedPointId = none, rideProgress = 0 and isRiding = false. -/
theorem clearTrack_resets (st : Store) :
    (clearTrack st).state.trackPoints = [] ∧
    (clearTrack st).state.selectedPointId = none ∧
    (clearTrack st).state.rideProgress = 0 ∧
    (clearTrack st).state.isRiding = false :=
  ⟨rfl, rfl, rfl, rfl⟩

/-- C10: clearTrack leaves every other field unchanged: mode, rideSpeed,
isDraggingPoint, isAddingPoints, isLooped, hasChainLift, showWoodSupports,
isNightMode and cameraTarget keep their prior values; in particular a
clear issued while mode is ride leaves mode at ride. -/
theorem clearTrack_frame (st : Store) :
    (clearTrack st).state.mode = st.state.mode ∧
    (clearTrack st).state.rideSpeed = st.state.rideSpeed ∧
    (clearTrack st).state.isDraggingPoint = st.state.isDraggingPoint ∧
    (clearTrack st).state.isAddingPoints = st.state.isAddingPoints ∧
    (clearTrack st).state.isLooped = st.state.isLooped ∧
    (clearTrack st).state.hasChainLift = st.state.hasChainLift ∧
    (clearTrack st).state.showWoodSupports = st.state.showWoodSupports ∧
    (clearTrack st).state.isNightMode = st.state.isNightMode ∧
    (clearTrack st).state.cameraTarget = st.state.cameraTarget :=
  ⟨rfl, rfl, rfl, rfl, rfl, rfl, rfl, rfl, rfl⟩

/-- C7: startRide on a track with at least two points sets mode to ride,
isRiding to true and rideProgress to 0; on a shorter track it leaves the
entire store unchanged. -/
theorem startRide_spec (st : Store) :
    (2 ≤ st.state.trackPoints.length →
      startRide st = { st with state := { st.state with
        mode := .ride, isRiding := true, rideProgress := 0 } }) ∧
    (st.state.trackPoints.length < 2 → startRide st = st) := by
  constructor
  · intro h
    unfold startRide
    rw [if_pos h]
  · intro h
    unfold startRide
    rw [if_neg (by omega)]

/-- Witness for C7: the two-point store starts the ride, the one-point
store is left unchanged. -/
theorem startRide_spec_witness :
    startRide st2 = { st2 with state := { st2.state with
      mode := .ride, isRiding := true, rideProgress := 0 } } ∧
    startRide st1 = st1 :=
  ⟨(startRide_spec st2).1 (by decide), (startRide_spec st1).2 (by decide)⟩

/-- C2: when the id resolves to no point, or resolves to the last point of
the sequence, createLoopAtPoint returns the store unchanged. -/
theorem createLoop_noop (st : Store) (id : String)
    (h : st.state.trackPoints.findIdx? (fun p => p.id == id) = none ∨
      st.state.trackPoints.findIdx? (fun p => p.id == id)
        = some (st.state.trackPoints.length - 1)) :
    createLoopAtPoint id st = st := by
  rcases h with h | h
  · unfold createLoopAtPoint
    rw [h]
  · refine createLoopAtPoint_reject id st fun i hi => ?_
    rw [h] at hi
    injection hi with hh
    omega

/-- Witness for C2: on the one-point store the only point is the last one,
and createLoopAtPoint leaves the store unchanged. -/
theorem createLoop_noop_witness :
    createLoopAtPoint "point-1" st1 = st1 ∧
      st1.state.trackPoints.findIdx? (fun p => p.id == "point-1")
        = some (st1.state.trackPoints.length - 1) :=
  ⟨createLoop_noop st1 "point-1" (Or.inr (by decide)),
   by decide⟩

/-! ### Claim C9 (corrected) -/

/-- Counterexample to C9 as stated: on a store whose selection references
an id carried by no point, removeTrackPoint with that id is not a no-op:
it clears the selection. -/
theorem removeTrackPoint_not_noop_cex :
    (∀ p ∈ stSel.state.trackPoints, p.id ≠ "ghost") ∧
      removeTrackPoint "ghost" stSel ≠ stSel := by
  constructor
  · intro p hp
    simp [stSel, initState] at hp
  · intro h
    have hsel := congrArg (fun s => s.state.selectedPointId) h
    simp [removeTrackPoint, stSel, initState] at hsel

/-- C9 amended: removeTrackPoint removes exactly the matching points,
preserving the order of the others; it sets selectedPointId to none when
it equaled the id and leaves it unchanged otherwise; the track sequence is
unchanged when no point matches (the selection is still cleared in that
case when it equals the id); applying the operation twice equals applying
it once. -/
theorem removeTrackPoint_spec (st : Store) (id : String) :
    (removeTrackPoint id st).state.trackPoints.Sublist st.state.trackPoints ∧
    (∀ p : TrackPoint, p ∈ (removeTrackPoint id st).state.trackPoints ↔
      p ∈ st.state.trackPoints ∧ p.id ≠ id) ∧
    (st.state.selectedPointId = some id →
      (removeTrackPoint id st).state.selectedPointId = none) ∧
    (st.state.selectedPointId ≠ some id →
      (removeTrackPoint id st).state.selectedPointId
        = st.state.selectedPointId) ∧
    ((∀ p ∈ st.state.trackPoints, p.id ≠ id) →
      (removeTrackPoint id st).state.trackPoints = st.state.trackPoints) ∧
    removeTrackPoint id (removeTrackPoint id st) = removeTrackPoint id st := by
  have hfil : ∀ l : List TrackPoint,
      (l.filter fun p => !(p.id == id)).filter (fun p => !(p.id == id))
        = l.filter fun p => !(p.id == id) := by
    intro l
    rw [List.filter_filter]
    refine List.filter_congr fun a _ => ?_
    rw [Bool.and_self]
  refine ⟨?_, ?_, ?_, ?_, ?_, ?_⟩
  · exact List.filter_sublist _
  · intro p
    simp [removeTrackPoint, List.mem_filter]
  · intro h
    simp [removeTrackPoint, h]
  · intro h
    simp [removeTrackPoint, h]
  · intro h
    simp only [removeTrackPoint]
    refine List.filter_eq_self.mpr fun p hp => ?_
    simpa using h p hp
  · unfold removeTrackPoint
    by_cases hsel : st.state.selectedPointId = some id
    · simp [hsel, hfil]
    · simp [hsel, hfil]

/-- Witness for the amended C9 on concrete stores: removing the selected
id clears the selection; removing an id carried by no point leaves the
track unchanged; a second removal changes nothing. -/
theorem removeTrackPoint_spec_witness :
    (removeTrackPoint "point-1" stRem).state.selectedPointId = none ∧
    (removeTrackPoint "other" stRem).state.selectedPointId = some "point-1" ∧
    (removeTrackPoint "other" stRem).state.trackPoints
      = stRem.state.trackPoints ∧
    removeTrackPoint "point-1" (removeTrackPoint "point-1" stRem)
      = removeTrackPoint "point-1" stRem :=
  ⟨(removeTrackPoint_spec stRem "point-1").2.2.1 (by decide),
   (removeTrackPoint_spec stRem "other").2.2.2.1 (by decide),
   (removeTrackPoint_spec stRem "other").2.2.2.2.1 (by decide),
   (removeTrackPoint_spec stRem "point-1").2.2.2.2.2⟩

/-! ### Claim C5 -/

/-- The unit x vector is a fixed point of normalization (its length is 1). -/
theorem normalize_unitX : Vec3.normalize ⟨1, 0, 0⟩ = ⟨1, 0, 0⟩ := by
  unfold Vec3.normalize Vec3.len
  norm_num

/-- C5: the forward vector is the fallback (1,0,0) when the target is the
first point, or when the horizontal difference from the preceding point is
shorter than 0.1; otherwise it is that horizontal difference normalized;
and left is the normalized cross product up x forward. -/
theorem forward_left_spec (tps : List TrackPoint) (i : ℕ) :
    (i = 0 → computeForward tps i = ⟨1, 0, 0⟩) ∧
    (0 < i → (horizDelta tps i).len < 0.1 →
      computeForward tps i = ⟨1, 0, 0⟩) ∧
    (0 < i → ¬ (horizDelta tps i).len < 0.1 →
      computeForward tps i = (horizDelta tps i).normalize) ∧
    computeLeft tps i
      = Vec3.normalize (Vec3.cross ⟨0, 1, 0⟩ (computeForward tps i)) := by
  refine ⟨?_, ?_, ?_, rfl⟩
  · intro h
    subst h
    simp [computeForward]
  · intro hi hsmall
    unfold computeForward
    rw [if_pos hi]
    dsimp only
    rw [if_pos hsmall]
    exact normalize_unitX
  · intro hi hsmall
    unfold computeForward
    rw [if_pos hi]
    dsimp only
    rw [if_neg hsmall]

/-- Witness for C5: on the concrete two-point track the first index uses
the fallback and the second uses the normalized difference (10, 0, 0). -/
theorem forward_left_spec_witness :
    computeForward tps5 0 = ⟨1, 0, 0⟩ ∧
    computeForward tps5 1 = (horizDelta tps5 1).normalize ∧
    ¬ (horizDelta tps5 1).len < 0.1 := by
  have hdelta : horizDelta tps5 1 = ⟨10, 0, 0⟩ := by
    simp [horizDelta, tps5, pA, pC, Vec3.sub]
  have hlen : ¬ (horizDelta tps5 1).len < 0.1 := by
    rw [hdelta]
    unfold Vec3.len
    have h100 : Real.sqrt (10 * 10 + 0 * 0 + 0 * 0) = 10 := by
      rw [show (10 * 10 + 0 * 0 + 0 * 0 : ℝ) = 10 ^ 2 by norm_num]
      exact Real.sqrt_sq (by norm_num)
    rw [h100]
    norm_num
  exact ⟨(forward_left_spec tps5 0).1 rfl,
    (forward_left_spec tps5 1).2.2.1 (by norm_num) hlen, hlen⟩

/-! ### Claim C1 -/

/-- The incoming-section shift moves a point by +10 along the horizontal
components of left. -/
theorem shiftLeft_eq_translate (left : Vec3) :
    shiftLeftPoint left = translateH 10 left := by
  funext p
  unfold shiftLeftPoint translateH
  have h10 : lateralOffset = (10:ℝ) := by norm_num [lateralOffset, loopRadius]
  rw [h10]
  refine congrArg (fun v => { p with position := v }) ?_
  simp only [Vec3.mk.injEq]
  exact ⟨by ring, trivial, by ring⟩

/-- The outgoing-section shift moves a point by -10 along the horizontal
components of left. -/
theorem shiftRight_eq_translate (left : Vec3) :
    shiftRightPoint left = translateH (-10) left := by
  funext p
  unfold shiftRightPoint translateH
  have h10 : lateralOffset = (10:ℝ) := by norm_num [lateralOffset, loopRadius]
  rw [h10]
  refine congrArg (fun v => { p with position := v }) ?_
  simp only [Vec3.mk.injEq]
  exact ⟨by ring, trivial, by ring⟩

/-- C1: a successful createLoopAtPoint replaces the track with the points
up to and including the target translated by +lateralOffset = +10 along
left (heights unchanged), then 7 freshly minted loop points, then the
remaining points translated by -10 along left; the length grows by 7. -/
theorem createLoop_splice (st : Store) (id : String) (i : ℕ)
    (hfind : st.state.trackPoints.findIdx? (fun p => p.id == id) = some i)
    (hlast : i < st.state.trackPoints.length - 1) :
    lateralOffset = 10 ∧
    (createLoopAtPoint id st).state.trackPoints
      = (st.state.trackPoints.take (i + 1)).map
          (translateH 10 (computeLeft st.state.trackPoints i))
        ++ loopPoints st.counter
            (loopCenter st.state.trackPoints i
              (computeLeft st.state.trackPoints i))
            (computeLeft st.state.trackPoints i)
        ++ (st.state.trackPoints.drop (i + 1)).map
          (translateH (-10) (computeLeft st.state.trackPoints i)) ∧
    (loopPoints st.counter
        (loopCenter st.state.trackPoints i (computeLeft st.state.trackPoints i))
        (computeLeft st.state.trackPoints i)).map TrackPoint.id
      = (List.range' 1 7).map (fun j => mkId (st.counter + j)) ∧
    (createLoopAtPoint id st).state.trackPoints.length
      = st.state.trackPoints.length + 7 := by
  rw [createLoopAtPoint_success id st i hfind hlast]
  refine ⟨by norm_num [lateralOffset, loopRadius], ?_, ?_, ?_⟩
  · simp only [incomingPoints, outgoingPoints, shiftLeft_eq_translate,
      shiftRight_eq_translate]
  · simp only [loopPoints, List.map_map]
    rfl
  · simp only [incomingPoints, outgoingPoints, loopPoints, List.length_append,
      List.length_map, List.length_take, List.length_drop, List.length_range',
      arcPoints]
    omega

/-- Witness for C1 on the concrete two-point store: the splice shape and
the growth by 7. -/
theorem createLoop_splice_witness :
    (createLoopAtPoint "point-1" st2).state.trackPoints
      = (tps2.take 1).map (translateH 10 left2)
        ++ loopPoints st2.counter center2 left2
        ++ (tps2.drop 1).map (translateH (-10) left2) ∧
    (createLoopAtPoint "point-1" st2).state.trackPoints.length
      = tps2.length + 7 := by
  have h := createLoop_splice st2 "point-1" 0 (by decide) (by decide)
  exact ⟨h.2.1, h.2.2.2⟩

/-! ### Claim C3 -/

/-- Reading the generated loop points by index: the (j-1)-th element of
loopPoints is the point generated for angle index j. -/
theorem loopPoints_getD (c : ℕ) (center left : Vec3) (j : ℕ)
    (h1 : 1 ≤ j) (h7 : j ≤ 7) :
    (loopPoints c center left).getD (j - 1) defaultPoint
      = loopPoint c center left j := by
  interval_cases j <;> rfl

/-- C3: after a successful createLoopAtPoint the point at index i + j
(j = 1..7) is the freshly minted point at angle (j/8)*2*pi: lateral offset
cos * 8 along left from the loop center and vertical offset sin * 8; the
center is the horizontal midpoint of the anchors at entry height + 8; and
the first loop point has equal vertical and lateral offsets
sin(2*pi/8)*8 = cos(2*pi/8)*8, approximately 5.657. -/
theorem createLoop_arcFormula (st : Store) (id : String) (i j : ℕ)
    (hfind : st.state.trackPoints.findIdx? (fun p => p.id == id) = some i)
    (hlast : i < st.state.trackPoints.length - 1)
    (hj1 : 1 ≤ j) (hj7 : j ≤ 7) :
    (createLoopAtPoint id st).state.trackPoints.getD (i + j) defaultPoint
      = ⟨mkId (st.counter + j),
         ⟨(loopCenter st.state.trackPoints i
              (computeLeft st.state.trackPoints i)).x
            + (computeLeft st.state.trackPoints i).x
              * (Real.cos ((j:ℝ)/8 * (2*Real.pi)) * 8),
          (loopCenter st.state.trackPoints i
              (computeLeft st.state.trackPoints i)).y
            + Real.sin ((j:ℝ)/8 * (2*Real.pi)) * 8,
          (loopCenter st.state.trackPoints i
              (computeLeft st.state.trackPoints i)).z
            + (computeLeft st.state.trackPoints i).z
              * (Real.cos ((j:ℝ)/8 * (2*Real.pi)) * 8)⟩,
         0⟩ ∧
    loopCenter st.state.trackPoints i (computeLeft st.state.trackPoints i)
      = ⟨((entryPos st.state.trackPoints i
              (computeLeft st.state.trackPoints i)).x
          + (exitPos st.state.trackPoints i
              (computeLeft st.state.trackPoints i)).x) / 2,
         (entryPos st.state.trackPoints i
            (computeLeft st.state.trackPoints i)).y + 8,
         ((entryPos st.state.trackPoints i
              (computeLeft st.state.trackPoints i)).z
          + (exitPos st.state.trackPoints i
              (computeLeft st.state.trackPoints i)).z) / 2⟩ ∧
    Real.sin ((1:ℝ)/8 * (2*Real.pi)) * 8
      = Real.cos ((1:ℝ)/8 * (2*Real.pi)) * 8 ∧
    |Real.sin ((1:ℝ)/8 * (2*Real.pi)) * 8 - 5.657| < 1/1000 := by
  have htps : i + 1 < st.state.trackPoints.length := by omega
  rw [createLoopAtPoint_success id st i hfind hlast]
  have hinclen : (incomingPoints st.state.trackPoints i
      (computeLeft st.state.trackPoints i)).length = i + 1 := by
    simp only [incomingPoints, List.length_map, List.length_take]
    omega
  have hlpslen : (loopPoints st.counter
      (loopCenter st.state.trackPoints i (computeLeft st.state.trackPoints i))
      (computeLeft st.state.trackPoints i)).length = 7 := by
    simp only [loopPoints, List.length_map, List.length_range', arcPoints]
  refine ⟨?_, rfl, ?_, ?_⟩
  · rw [List.getD_append _ _ _ _
      (by rw [List.length_append, hinclen, hlpslen]; omega)]
    rw [List.getD_append_right _ _ _ _ (by rw [hinclen]; omega)]
    rw [hinclen, show i + j - (i + 1) = j - 1 from by omega]
    rw [loopPoints_getD _ _ _ j hj1 hj7]
    unfold loopPoint loopArcPos
    rw [show loopAngle j = (j:ℝ)/8 * (2*Real.pi) from by
      unfold loopAngle
      simp only [arcPoints, Nat.cast_ofNat]
      ring]
    norm_num [loopRadius]
  · have harg : (1:ℝ)/8 * (2*Real.pi) = Real.pi/4 := by ring
    rw [harg, Real.sin_pi_div_four, Real.cos_pi_div_four]
  · have harg : (1:ℝ)/8 * (2*Real.pi) = Real.pi/4 := by ring
    rw [harg, Real.sin_pi_div_four]
    have h1 : Real.sqrt 2 < 1.41422 := by
      rw [show (1.41422:ℝ) = Real.sqrt (1.41422^2) by
        rw [Real.sqrt_sq (by norm_num)]]
      apply Real.sqrt_lt_sqrt (by norm_num)
      norm_num
    have h2 : (1.41421:ℝ) < Real.sqrt 2 := by
      rw [show (1.41421:ℝ) = Real.sqrt (1.41421^2) by
        rw [Real.sqrt_sq (by norm_num)]]
      apply Real.sqrt_lt_sqrt (by norm_num)
      norm_num
    rw [abs_lt]
    constructor <;> nlinarith

/-- Witness for C3: on the concrete two-point store, the point at index 1
of the new track is the first generated loop point. -/
theorem createLoop_arcFormula_witness :
    (createLoopAtPoint "point-1" st2).state.trackPoints.getD 1 defaultPoint
      = ⟨mkId (st2.counter + 1),
         ⟨(loopCenter st2.state.trackPoints 0
              (computeLeft st2.state.trackPoints 0)).x
            + (computeLeft st2.state.trackPoints 0).x
              * (Real.cos ((1:ℝ)/8 * (2*Real.pi)) * 8),
          (loopCenter st2.state.trackPoints 0
              (computeLeft st2.state.trackPoints 0)).y
            + Real.sin ((1:ℝ)/8 * (2*Real.pi)) * 8,
          (loopCenter st2.state.trackPoints 0
              (computeLeft st2.state.trackPoints 0)).z
            + (computeLeft st2.state.trackPoints 0).z
              * (Real.cos ((1:ℝ)/8 * (2*Real.pi)) * 8)⟩,
         0⟩ := by
  have h := (createLoop_arcFormula st2 "point-1" 0 1
    (by decide) (by decide) (by decide) (by decide)).1
  simpa using h

/-! ### Claim C4 (corrected) -/

/-- Counterexample to C4 as stated: on the concrete two-point store the
target resolves successfully to index 0, yet the arc position at angle 0
differs from the entry anchor (it sits at center height, 8 above it). -/
theorem loopArc_anchor_cex :
    st2.state.trackPoints.findIdx? (fun p => p.id == "point-1") = some 0 ∧
    0 < st2.state.trackPoints.length - 1 ∧
    loopArcPos
        (loopCenter st2.state.trackPoints 0
          (computeLeft st2.state.trackPoints 0))
        (computeLeft st2.state.trackPoints 0) 0
      ≠ entryPos st2.state.trackPoints 0 (computeLeft st2.state.trackPoints 0) := by
  refine ⟨by decide, by decide, ?_⟩
  intro h
  have hy := congrArg Vec3.y h
  simp only [loopArcPos, loopCenter, Real.sin_zero, zero_mul, add_zero] at hy
  have h0 : loopRadius = 0 := by linarith
  norm_num [loopRadius] at h0

/-- C4 amended: the arc position at angle 0 is center + 8 * left
horizontally at center height (the entry lateral side) and at angle pi it
is center - 8 * left horizontally at center height (the exit lateral
side); the center sits 8 above the entry anchor height, so the angle-0 arc
position never coincides with the entry anchor. -/
theorem loopArc_sides (st : Store) (id : String) (i : ℕ)
    (_hfind : st.state.trackPoints.findIdx? (fun p => p.id == id) = some i)
    (_hlast : i < st.state.trackPoints.length - 1) :
    loopArcPos
        (loopCenter st.state.trackPoints i (computeLeft st.state.trackPoints i))
        (computeLeft st.state.trackPoints i) 0
      = ⟨(loopCenter st.state.trackPoints i
            (computeLeft st.state.trackPoints i)).x
          + (computeLeft st.state.trackPoints i).x * 8,
         (loopCenter st.state.trackPoints i
            (computeLeft st.state.trackPoints i)).y,
         (loopCenter st.state.trackPoints i
            (computeLeft st.state.trackPoints i)).z
          + (computeLeft st.state.trackPoints i).z * 8⟩ ∧
    loopArcPos
        (loopCenter st.state.trackPoints i (computeLeft st.state.trackPoints i))
        (computeLeft st.state.trackPoints i) Real.pi
      = ⟨(loopCenter st.state.trackPoints i
            (computeLeft st.state.trackPoints i)).x
          - (computeLeft st.state.trackPoints i).x * 8,
         (loopCenter st.state.trackPoints i
            (computeLeft st.state.trackPoints i)).y,
         (loopCenter st.state.trackPoints i
            (computeLeft st.state.trackPoints i)).z
          - (computeLeft st.state.trackPoints i).z * 8⟩ ∧
    (loopCenter st.state.trackPoints i (computeLeft st.state.trackPoints i)).y
      = (entryPos st.state.trackPoints i
          (computeLeft st.state.trackPoints i)).y + 8 ∧
    loopArcPos
        (loopCenter st.state.trackPoints i (computeLeft st.state.trackPoints i))
        (computeLeft st.state.trackPoints i) 0
      ≠ entryPos st.state.trackPoints i (computeLeft st.state.trackPoints i) := by
  refine ⟨?_, ?_, rfl, ?_⟩
  · simp only [loopArcPos, Real.cos_zero, Real.sin_zero, zero_mul, add_zero,
      one_mul]
    norm_num [loopRadius]
  · simp only [loopArcPos, Real.cos_pi, Real.sin_pi, zero_mul, add_zero]
    norm_num [loopRadius]
    constructor <;> ring
  · intro h
    have hy := congrArg Vec3.y h
    simp only [loopArcPos, loopCenter, Real.sin_zero, zero_mul, add_zero] at hy
    have h0 : loopRadius = 0 := by linarith
    norm_num [loopRadius] at h0

/-- Witness for the amended C4: on the concrete two-point store the loop
center height is the entry anchor height plus 8. -/
theorem loopArc_sides_witness :
    (loopCenter st2.state.trackPoints 0
        (computeLeft st2.state.trackPoints 0)).y
      = (entryPos st2.state.trackPoints 0
          (computeLeft st2.state.trackPoints 0)).y + 8 :=
  (loopArc_sides st2 "point-1" 0 (by decide) (by decide)).2.2.1

/-! ### Claim C6: id uniqueness along every operation sequence -/

theorem idsOk_init : IdsOk initialStore := by
  constructor
  · simp [initialStore, initState]
  · intro p hp
    simp [initialStore, initState] at hp

theorem ids_map_preserve (l : List TrackPoint) (f : TrackPoint → TrackPoint)
    (hf : ∀ p, (f p).id = p.id) :
    (l.map f).map TrackPoint.id = l.map TrackPoint.id := by
  rw [List.map_map]
  exact List.map_congr_left fun a _ => hf a

theorem ids_incoming (tps : List TrackPoint) (i : ℕ) (left : Vec3) :
    (incomingPoints tps i left).map TrackPoint.id
      = (tps.take (i + 1)).map TrackPoint.id := by
  unfold incomingPoints
  rw [List.map_map]
  rfl

theorem ids_outgoing (tps : List TrackPoint) (i : ℕ) (left : Vec3) :
    (outgoingPoints tps i left).map TrackPoint.id
      = (tps.drop (i + 1)).map TrackPoint.id := by
  unfold outgoingPoints
  rw [List.map_map]
  rfl

theorem ids_loopPoints (c : ℕ) (center left : Vec3) :
    (loopPoints c center left).map TrackPoint.id
      = (List.range' 1 7).map (fun j => mkId (c + j)) := by
  unfold loopPoints
  rw [List.map_map]
  rfl

theorem mkIdAdd_injective (c : ℕ) :
    Function.Injective (fun j => mkId (c + j)) := by
  intro a b h
  have := mkId_injective h
  omega

theorem idsOk_addTrackPoint (pos : Vec3) (st : Store) (h : IdsOk st) :
    IdsOk (addTrackPoint pos st) := by
  obtain ⟨hnd, hbd⟩ := h
  constructor
  · show ((st.state.trackPoints
      ++ [(⟨mkId (st.counter + 1), pos, 0⟩ : TrackPoint)]).map TrackPoint.id).Nodup
    rw [List.map_append, List.nodup_append]
    refine ⟨hnd, by simp, ?_⟩
    intro a ha hb
    simp only [List.map_cons, List.map_nil, List.mem_singleton] at hb
    rcases List.mem_map.mp ha with ⟨p, hp, rfl⟩
    rcases hbd p hp with ⟨k, hk1, hk2, hid⟩
    rw [hid] at hb
    have := mkId_injective hb
    omega
  · intro p hp
    have hp2 : p ∈ st.state.trackPoints
        ++ [(⟨mkId (st.counter + 1), pos, 0⟩ : TrackPoint)] := hp
    have hcnt : (addTrackPoint pos st).counter = st.counter + 1 := rfl
    rw [hcnt]
    rcases List.mem_append.mp hp2 with hp3 | hp3
    · rcases hbd p hp3 with ⟨k, hk1, hk2, hid⟩
      exact ⟨k, hk1, by omega, hid⟩
    · simp only [List.mem_singleton] at hp3
      subst hp3
      exact ⟨st.counter + 1, by omega, by omega, rfl⟩

theorem idsOk_update (id : String) (pos : Vec3) (st : Store) (h : IdsOk st) :
    IdsOk (updateTrackPoint id pos st) := by
  obtain ⟨hnd, hbd⟩ := h
  have hfid : ∀ p : TrackPoint,
      ((fun p => if p.id == id then { p with position := pos } else p) p).id
        = p.id := by
    intro p
    by_cases hb : p.id == id <;> simp [hb]
  constructor
  · show ((st.state.trackPoints.map
      (fun p => if p.id == id then { p with position := pos } else p)).map
        TrackPoint.id).Nodup
    rw [ids_map_preserve _ _ hfid]
    exact hnd
  · intro p hp
    rcases List.mem_map.mp hp with ⟨q, hq, rfl⟩
    rcases hbd q hq with ⟨k, hk1, hk2, hid⟩
    exact ⟨k, hk1, hk2, by rw [hfid q]; exact hid⟩

theorem idsOk_updateTilt (id : String) (tilt : ℝ) (st : Store) (h : IdsOk st) :
    IdsOk (updateTrackPointTilt id tilt st) := by
  obtain ⟨hnd, hbd⟩ := h
  have hfid : ∀ p : TrackPoint,
      ((fun p => if p.id == id then { p with tilt := tilt } else p) p).id
        = p.id := by
    intro p
    by_cases hb : p.id == id <;> simp [hb]
  constructor
  · show ((st.state.trackPoints.map
      (fun p => if p.id == id then { p with tilt := tilt } else p)).map
        TrackPoint.id).Nodup
    rw [ids_map_preserve _ _ hfid]
    exact hnd
  · intro p hp
    rcases List.mem_map.mp hp with ⟨q, hq, rfl⟩
    rcases hbd q hq with ⟨k, hk1, hk2, hid⟩
    exact ⟨k, hk1, hk2, by rw [hfid q]; exact hid⟩

theorem idsOk_remove (id : String) (st : Store) (h : IdsOk st) :
    IdsOk (removeTrackPoint id st) := by
  obtain ⟨hnd, hbd⟩ := h
  constructor
  · exact List.Nodup.sublist
      (List.Sublist.map TrackPoint.id (List.filter_sublist _)) hnd
  · intro p hp
    exact hbd p (List.mem_of_mem_filter hp)

theorem idsOk_clear (st : Store) (_h : IdsOk st) : IdsOk (clearTrack st) := by
  constructor
  · show (([] : List TrackPoint).map TrackPoint.id).Nodup
    simp
  · intro p hp
    simp only [clearTrack, List.not_mem_nil] at hp

theorem idsOk_createLoop (id : String) (st : Store) (h : IdsOk st) :
    IdsOk (createLoopAtPoint id st) := by
  obtain ⟨hnd, hbd⟩ := h
  rcases hf : st.state.trackPoints.findIdx? (fun p => p.id == id) with _ | i
  · unfold createLoopAtPoint
    rw [hf]
    exact ⟨hnd, hbd⟩
  · by_cases hlast : st.state.trackPoints.length - 1 ≤ i
    · rw [createLoopAtPoint_reject id st (fun k hk => by
        rw [hf] at hk
        injection hk with he
        omega)]
      exact ⟨hnd, hbd⟩
    · push_neg at hlast
      rw [createLoopAtPoint_success id st i hf hlast]
      have hmemAC : ∀ a : String,
          a ∈ (st.state.trackPoints.take (i + 1)).map TrackPoint.id ∨
            a ∈ (st.state.trackPoints.drop (i + 1)).map TrackPoint.id →
          ∃ k, 1 ≤ k ∧ k ≤ st.counter ∧ a = mkId k := by
        intro a ha
        rcases ha with ha | ha
        · rcases List.mem_map.mp ha with ⟨p, hp, rfl⟩
          exact hbd p (List.mem_of_mem_take hp)
        · rcases List.mem_map.mp ha with ⟨p, hp, rfl⟩
          exact hbd p (List.mem_of_mem_drop hp)
      have hmemB : ∀ a ∈ (List.range' 1 7).map
          (fun j => mkId (st.counter + j)),
          ∃ j, 1 ≤ j ∧ j ≤ 7 ∧ a = mkId (st.counter + j) := by
        intro a ha
        rcases List.mem_map.mp ha with ⟨j, hj, rfl⟩
        rcases List.mem_range'_1.mp hj with ⟨h1, h2⟩
        exact ⟨j, h1, by omega, rfl⟩
      constructor
      · show (((incomingPoints st.state.trackPoints i
            (computeLeft st.state.trackPoints i)
          ++ loopPoints st.counter
            (loopCenter st.state.trackPoints i
              (computeLeft st.state.trackPoints i))
            (computeLeft st.state.trackPoints i)
          ++ outgoingPoints st.state.trackPoints i
            (computeLeft st.state.trackPoints i))).map TrackPoint.id).Nodup
        rw [List.map_append, List.map_append, ids_incoming, ids_outgoing,
          ids_loopPoints]
        have hACnd : ((st.state.trackPoints.take (i + 1)).map TrackPoint.id
            ++ (st.state.trackPoints.drop (i + 1)).map TrackPoint.id).Nodup := by
          rw [← List.map_append, List.take_append_drop]
          exact hnd
        have hA := (List.nodup_append.mp hACnd).1
        have hC := (List.nodup_append.mp hACnd).2.1
        have hACdisj := (List.nodup_append.mp hACnd).2.2
        have hB : ((List.range' 1 7).map
            (fun j => mkId (st.counter + j))).Nodup :=
          List.Nodup.map (mkIdAdd_injective st.counter) (List.nodup_range' 1 7)
        have hfreshA : ∀ a ∈ (st.state.trackPoints.take (i + 1)).map
            TrackPoint.id,
            a ∉ (List.range' 1 7).map (fun j => mkId (st.counter + j)) := by
          intro a ha hb
          rcases hmemAC a (Or.inl ha) with ⟨k, hk1, hk2, rfl⟩
          rcases hmemB _ hb with ⟨j, hj1, hj7, he⟩
          have := mkId_injective he
          omega
        have hfreshC : ∀ a ∈ (st.state.trackPoints.drop (i + 1)).map
            TrackPoint.id,
            a ∉ (List.range' 1 7).map (fun j => mkId (st.counter + j)) := by
          intro a ha hb
          rcases hmemAC a (Or.inr ha) with ⟨k, hk1, hk2, rfl⟩
          rcases hmemB _ hb with ⟨j, hj1, hj7, he⟩
          have := mkId_injective he
          omega
        rw [List.nodup_append]
        refine ⟨?_, hC, ?_⟩
        · rw [List.nodup_append]
          exact ⟨hA, hB, fun a ha hb => hfreshA a ha hb⟩
        · intro a ha hc
          rcases List.mem_append.mp ha with ha2 | ha2
          · exact hACdisj ha2 hc
          · exact hfreshC a hc ha2
      · intro p hp
        have hp2 : p ∈ incomingPoints st.state.trackPoints i
              (computeLeft st.state.trackPoints i)
            ++ loopPoints st.counter
              (loopCenter st.state.trackPoints i
                (computeLeft st.state.trackPoints i))
              (computeLeft st.state.trackPoints i)
            ++ outgoingPoints st.state.trackPoints i
              (computeLeft st.state.trackPoints i) := hp
        have hcnt : ∀ k, k ≤ st.counter + (arcPoints - 1) ↔
            k ≤ st.counter + 7 := by
          intro k
          simp [arcPoints]
        show ∃ k, 1 ≤ k ∧ k ≤ st.counter + (arcPoints - 1) ∧ p.id = mkId k
        rcases List.mem_append.mp hp2 with hp3 | hp3
        · rcases List.mem_append.mp hp3 with hp4 | hp4
          · rcases List.mem_map.mp hp4 with ⟨q, hq, rfl⟩
            rcases hbd q (List.mem_of_mem_take hq) with ⟨k, hk1, hk2, hid⟩
            exact ⟨k, hk1, (hcnt k).mpr (by omega), hid⟩
          · have hp5 : p ∈ (List.range' 1 (arcPoints - 1)).map
                (loopPoint st.counter
                  (loopCenter st.state.trackPoints i
                    (computeLeft st.state.trackPoints i))
                  (computeLeft st.state.trackPoints i)) := hp4
            rcases List.mem_map.mp hp5 with ⟨j, hj, rfl⟩
            rcases List.mem_range'_1.mp hj with ⟨h1, h2⟩
            refine ⟨st.counter + j, by omega, (hcnt _).mpr ?_, rfl⟩
            simp only [arcPoints] at h2
            omega
        · rcases List.mem_map.mp hp3 with ⟨q, hq, rfl⟩
          rcases hbd q (List.mem_of_mem_drop hq) with ⟨k, hk1, hk2, hid⟩
          exact ⟨k, hk1, (hcnt k).mpr (by omega), hid⟩

theorem idsOk_runOp (op : Op) (st : Store) (h : IdsOk st) :
    IdsOk (runOp op st) := by
  cases op with
  | setMode m => exact h
  | setCameraTarget t => exact h
  | addTrackPoint pos => exact idsOk_addTrackPoint pos st h
  | updateTrackPoint id pos => exact idsOk_update id pos st h
  | updateTrackPointTilt id tilt => exact idsOk_updateTilt id tilt st h
  | removeTrackPoint id => exact idsOk_remove id st h
  | createLoopAtPoint id => exact idsOk_createLoop id st h
  | selectPoint id => exact h
  | clearTrack => exact idsOk_clear st h
  | setRideProgress p => exact h
  | setIsRiding b => exact h
  | setRideSpeed s => exact h
  | setIsDraggingPoint b => exact h
  | setIsAddingPoints b => exact h
  | setIsLooped b => exact h
  | setHasChainLift b => exact h
  | setShowWoodSupports b => exact h
  | setIsNightMode b => exact h
  | startRide =>
    show IdsOk (startRide st)
    unfold startRide
    by_cases hc : 2 ≤ st.state.trackPoints.length
    · rw [if_pos hc]
      exact h
    · rw [if_neg hc]
      exact h
  | stopRide => exact h

theorem idsOk_runAll (ops : List Op) :
    ∀ st : Store, IdsOk st → IdsOk (runAll ops st) := by
  induction ops with
  | nil => intro st h; exact h
  | cons op ops ih =>
    intro st h
    have hstep : runAll (op :: ops) st = runAll ops (runOp op st) := rfl
    rw [hstep]
    exact ih _ (idsOk_runOp op st h)

/-- C6: along every operation sequence from the initial store the track
ids stay pairwise distinct; addTrackPoint appends exactly one point with a
freshly minted id (absent from the track) and tilt 0; and n addTrackPoint
calls on the empty initial track give length n. -/
theorem trackIds_invariant :
    (∀ ops : List Op,
      ((runAll ops initialStore).state.trackPoints.map TrackPoint.id).Nodup) ∧
    (∀ (ops : List Op) (pos : Vec3),
      (runOp (Op.addTrackPoint pos)
          (runAll ops initialStore)).state.trackPoints
        = (runAll ops initialStore).state.trackPoints
          ++ [(⟨mkId ((runAll ops initialStore).counter + 1), pos, 0⟩ :
                TrackPoint)] ∧
      mkId ((runAll ops initialStore).counter + 1)
        ∉ (runAll ops initialStore).state.trackPoints.map TrackPoint.id) ∧
    (∀ ps : List Vec3,
      (runAll (ps.map Op.addTrackPoint) initialStore).state.trackPoints.length
        = ps.length) := by
  have hInv : ∀ ops : List Op, IdsOk (runAll ops initialStore) :=
    fun ops => idsOk_runAll ops initialStore idsOk_init
  refine ⟨fun ops => (hInv ops).1, ?_, ?_⟩
  · intro ops pos
    refine ⟨rfl, ?_⟩
    intro hmem
    rcases List.mem_map.mp hmem with ⟨p, hp, hpid⟩
    rcases (hInv ops).2 p hp with ⟨k, hk1, hk2, hid⟩
    rw [hid] at hpid
    have := mkId_injective hpid
    omega
  · have aux : ∀ (ps : List Vec3) (st : Store),
        (runAll (ps.map Op.addTrackPoint) st).state.trackPoints.length
          = st.state.trackPoints.length + ps.length := by
      intro ps
      induction ps with
      | nil => intro st; rfl
      | cons q qs ih =>
        intro st
        have h1 : runAll ((q :: qs).map Op.addTrackPoint) st
            = runAll (qs.map Op.addTrackPoint)
                (runOp (Op.addTrackPoint q) st) := rfl
        rw [h1, ih]
        have h2 : (runOp (Op.addTrackPoint q) st).state.trackPoints.length
            = st.state.trackPoints.length + 1 := by
          show (st.state.trackPoints
            ++ [(⟨mkId (st.counter + 1), q, 0⟩ : TrackPoint)]).length = _
          simp
        rw [h2, List.length_cons]
        omega
    intro ps
    rw [aux ps initialStore]
    simp [initialStore, initState]
